import Mathlib

/-
Verification of the ProTrack integration core (app/actions/client.py and
app/actions/handlers.py) against its natural-language specification.
The Python code is embedded shallowly: HTTP traffic is represented by a
script of vendor responses consumed one per request, the external
key-value state store by an association list, and each async function by
a pure Lean function threading the store explicitly.
-/

namespace ProTrack

/-! ## Python-level primitives -/

/-- A Python value as it appears in the loosely typed dicts the
integration passes around (device metadata, state payloads).  Datetimes
are represented by their integer unix seconds. -/
inductive PyVal where
  | vstr (s : String)
  | vint (n : Int)
  | vnone
deriving DecidableEq

/-- Splitting of a character list at every occurrence of a separator,
keeping empty pieces, as Python str.split(sep) does. -/
def splitChars (sep : Char) : List Char → List (List Char)
  | [] => [[]]
  | c :: cs =>
    match splitChars sep cs with
    | [] => [[]]
    | g :: gs => if c = sep then [] :: g :: gs else (c :: g) :: gs

/-- Python str.split(sep): total splitting that keeps empty pieces. -/
def pySplit (s : String) (sep : Char) : List String :=
  (splitChars sep s.toList).map (fun l => ⟨l⟩)

/-- Accumulating decimal digit reader; fails on any non-digit. -/
def decDigits : List Char → Nat → Option Nat
  | [], acc => some acc
  | c :: cs, acc =>
    if c.isDigit then decDigits cs (acc * 10 + (c.toNat - 48)) else none

/-- Python int(s) on a decimal string with optional leading minus sign,
as pydantic applies it to the numeric wire fields.  Fails (models a
pydantic ValidationError) on anything else. -/
def pyInt (s : String) : Option Int :=
  match s.toList with
  | [] => none
  | '-' :: rest =>
    if rest.isEmpty then none else (decDigits rest 0).map (fun n => -(n : Int))
  | l => (decDigits l 0).map (fun n => (n : Int))

/-! ## The external key-value state store

The state manager is keyed by (integration_id, action_id, source_id);
values are the JSON dicts the integration stores: either a cached token
dict or a per-device checkpoint dict. -/

abbrev StateKey := String × String × String

/-- The two dict shapes the integration ever stores: the token cache
entry, written as state={"access_token": token} in client.get_token, and
the per-device checkpoint, written as state={"updated_at": ts} in
handlers.action_playback. -/
inductive StateVal where
  | tokenState (access_token : String)
  | checkpointState (updated_at : Int)
deriving DecidableEq

abbrev Store := List (StateKey × StateVal)

def getState (store : Store) (k : StateKey) : Option StateVal :=
  (store.find? (fun kv => decide (kv.1 = k))).map (fun kv => kv.2)

def setState (store : Store) (k : StateKey) (v : StateVal) : Store :=
  (k, v) :: store.filter (fun kv => decide (kv.1 ≠ k))

def deleteState (store : Store) (k : StateKey) : Store :=
  store.filter (fun kv => decide (kv.1 ≠ k))

/-- The key under which client.get_token caches the auth token:
integration_id, action_id="pull_observations", source_id="token". -/
def tokenKey (iid : String) : StateKey := (iid, "pull_observations", "token")

/-! ## Data model (client.py) -/

/-- client.py PROTRACK_ERROR_CODE_EXPIRED_TOKEN = 10012. -/
def PROTRACK_ERROR_CODE_EXPIRED_TOKEN : Int := 10012

/-- client.py PROTRACK_MAX_OBSERVATIONS_RESPONSE = 1000. -/
def PROTRACK_MAX_OBSERVATIONS_RESPONSE : Nat := 1000

/-- client.py PlaybackResponse.  The gpstime wire field is an integer
unix-seconds string which pydantic parses into a UTC datetime; it is
represented here by that integer.  The longitude and latitude wire
fields are kept as their wire strings (pydantic parses them to float;
no verified claim depends on their numeric value). -/
structure PlaybackResponse where
  longitude : String
  latitude : String
  gpstime : Int
  speed : Int
  course : Int
deriving DecidableEq

/-- client.py lines 198-200: a raw comma-delimited playback entry is
split on commas and zipped with the keys [longitude, latitude, gpstime,
speed, course]; pydantic then validates the numeric fields.  Missing
fields or malformed numbers raise a ValidationError, modelled by none. -/
def parsePlaybackEntry (s : String) : Option PlaybackResponse :=
  let f := pySplit s ','
  match f.get? 0, f.get? 1, f.get? 2, f.get? 3, f.get? 4 with
  | some lon, some lat, some g, some sp, some co =>
    match pyInt g, pyInt sp, pyInt co with
    | some gt, some spi, some coi =>
      some { longitude := lon, latitude := lat, gpstime := gt,
             speed := spi, course := coi }
    | _, _, _ => none
  | _, _, _, _, _ => none

/-- The list comprehension building parsed_obs evaluates entries left to
right and raises at the first ValidationError; none models that raise. -/
def parseAll : List String → Option (List PlaybackResponse)
  | [] => some []
  | s :: rest =>
    match parsePlaybackEntry s, parseAll rest with
    | some x, some xs => some (x :: xs)
    | _, _ => none

/-- configurations.py PlaybackConfig.  The begintime field starts as an
integer but get_playback_observations reassigns it to the raw gpstime
string of the last entry of a full page (pydantic does not validate on
assignment), so it is modelled by the wire string that ends up in the
request parameters. -/
structure PlaybackConfig where
  access_token : String
  device_info : List (String × PyVal)
  imei : String
  begintime : String
  endtime : Int
  max_observations : Int := 1000
deriving DecidableEq

/-! ## The playback paginator (client.get_playback_observations)

Each outbound HTTP request consumes the next element of a response
script.  A scripted response is either the parsed JSON envelope
{code, message, record} (the message field is only logged and is
omitted) or a body whose parsed JSON is falsy (empty), in which case the
source returns response.text. -/

/-- One scripted vendor response to a playback request. -/
inductive PlaybackApiResp where
  | env (code : Int) (record : Option String)
  | nonJson (text : String)
deriving DecidableEq

/-- The request parameters that matter to the claims: config.dict() is
sent as query parameters, and of those only access_token and begintime
are ever changed between requests. -/
structure PlaybackRequest where
  access_token : String
  begintime : String
deriving DecidableEq

/-- What a call of get_playback_observations can produce: the parsed
records, the None returned on a non-retryable vendor code, the raw text
returned on a falsy JSON body, a Python runtime error (IndexError or
ValidationError), or exhaustion of the response script (standing for
the call still awaiting further vendor responses). -/
inductive PlaybackOutcome where
  | records (rs : List PlaybackResponse)
  | vendorError
  | rawText (t : String)
  | pyError
  | hung
deriving DecidableEq

/-- client.py line 186: record.split(";") if record else [], so a
missing or empty record field yields no entries. -/
def recordEntries : Option String → List String
  | none => []
  | some s => if s = "" then [] else pySplit s ';'

/-- client.py lines 157-202, get_playback_observations.  The while loop
is unrolled over the response script; acc is extracted_obs.  On code
10012 the token is deleted from the store and the whole call restarts
(the recursive call in the source) with the same, possibly mutated,
config object and a fresh accumulator; the access_token inside config is
never refreshed.  On a full page of PROTRACK_MAX_OBSERVATIONS_RESPONSE
entries, begintime is reassigned to field 2 of the comma-split of the
last entry and the loop continues; on a shorter page the loop stops and
the accumulated entries are parsed; on a longer page neither branch of
the source fires, so the loop continues with begintime unchanged. -/
def playbackLoop (iid : String) :
    PlaybackConfig → Store → List String → List PlaybackApiResp →
    PlaybackOutcome × Store × List PlaybackRequest
  | _, store, _, [] => (.hung, store, [])
  | cfg, store, acc, r :: rest =>
    let req : PlaybackRequest := ⟨cfg.access_token, cfg.begintime⟩
    match r with
    | .nonJson t => (.rawText t, store, [req])
    | .env code record =>
      if code ≠ 0 then
        if code = PROTRACK_ERROR_CODE_EXPIRED_TOKEN then
          let out := playbackLoop iid cfg (deleteState store (tokenKey iid)) [] rest
          (out.1, out.2.1, req :: out.2.2)
        else
          (.vendorError, store, [req])
      else
        let obs := recordEntries record
        let acc2 := acc ++ obs
        if obs.length = PROTRACK_MAX_OBSERVATIONS_RESPONSE then
          match (pySplit (obs.getLast?.getD "") ',').get? 2 with
          | none => (.pyError, store, [req])
          | some ts =>
            let out := playbackLoop iid { cfg with begintime := ts } store acc2 rest
            (out.1, out.2.1, req :: out.2.2)
        else if obs.length < PROTRACK_MAX_OBSERVATIONS_RESPONSE then
          match parseAll acc2 with
          | some rs => (.records rs, store, [req])
          | none => (.pyError, store, [req])
        else
          let out := playbackLoop iid cfg store acc2 rest
          (out.1, out.2.1, req :: out.2.2)

/-- client.get_playback_observations: run the pagination loop with an
empty extracted_obs accumulator.  Also returns the final store and the
per-request parameters, newest request last. -/
def get_playback_observations (iid : String) (cfg : PlaybackConfig)
    (store : Store) (script : List PlaybackApiResp) :
    PlaybackOutcome × Store × List PlaybackRequest :=
  playbackLoop iid cfg store [] script

/-! ## The token cache (client.get_token)

Authorization attempts are scripted: each actual call of
get_auth_response consumes the head of auths, some t standing for a
successful authorization and none for the endpoint yielding no token. -/

/-- What client.get_token can produce.  The typeErr constructor models
the buggy failure path: client.py line 77 calls
ProTrackUnauthorizedException(message) with a single positional
argument, while the class requires (error, message, status_code=401)
per client.py lines 50-55, so Python raises TypeError at the
construction, and the intended Unauthorized error carrying the original
cause and a descriptive message is never built. -/
inductive TokenResult where
  | tok (t : String)
  | pyNone
  | typeErr
  | hung
deriving DecidableEq

/-- client.py lines 64-86, get_token.  A cached state dict is truthy, so
a cached token entry is returned without any authorization request and
without touching the store; a cached dict without an access_token key
returns Python None.  On a cache miss an authorization response is
consumed: none takes the buggy raise path, some t stores and returns the
fresh token. -/
def get_token (iid : String) (store : Store) (auths : List (Option String)) :
    TokenResult × Store × List (Option String) :=
  match getState store (tokenKey iid) with
  | some (.tokenState s) => (.tok s, store, auths)
  | some (.checkpointState _) => (.pyNone, store, auths)
  | none =>
    match auths with
    | [] => (.hung, store, [])
    | a :: restA =>
      match a with
      | none => (.typeErr, store, restA)
      | some t => (.tok t, setState store (tokenKey iid) (.tokenState t), restA)

/-! ## The device directory (client.get_devices) -/

/-- client.py DeviceResponse.  Optional wire fields hold a PyVal, the
times as unix-seconds integers (the pydantic validator attaches UTC to
them, which does not change the instant). -/
structure DeviceResponse where
  simcard : PyVal
  platenumber : PyVal
  iccid : PyVal
  userduetime : PyVal
  onlinetime : PyVal
  activatedtime : PyVal
  imei : String
  devicename : String
  devicetype : PyVal
  platformduetime : PyVal
deriving DecidableEq

/-- device.dict(): the pydantic export of a DeviceResponse, in field
declaration order. -/
def DeviceResponse.toDict (d : DeviceResponse) : List (String × PyVal) :=
  [("simcard", d.simcard), ("platenumber", d.platenumber),
   ("iccid", d.iccid), ("userduetime", d.userduetime),
   ("onlinetime", d.onlinetime), ("activatedtime", d.activatedtime),
   ("imei", .vstr d.imei), ("devicename", .vstr d.devicename),
   ("devicetype", d.devicetype), ("platformduetime", d.platformduetime)]

/-- One scripted vendor response to a device-list request; the record of
a successful envelope is the already-validated device list. -/
inductive DeviceApiResp where
  | env (code : Int) (record : List DeviceResponse)
  | nonJson (text : String)
deriving DecidableEq

/-- What client.get_devices can produce.  tokenFailure propagates a
non-token result of get_token (the store never holds a checkpoint under
the token key in the device-list flow, so only the raising and the
script-exhaustion results occur in practice). -/
inductive DevicesOutcome where
  | devices (ds : List DeviceResponse)
  | vendorError
  | rawText (t : String)
  | tokenFailure (r : TokenResult)
  | hung
deriving DecidableEq

/-- client.py lines 121-154, get_devices.  Every attempt first calls
get_token (so a retry after invalidation does fetch a fresh token), then
issues the request.  On code 10012 the cached token is deleted and the
whole call restarts (the recursive call in the source); on any other
non-zero code the call returns None (vendorError); on code 0 the parsed
device list is returned.  The last component records the access_token
used by each issued request, newest request last. -/
def devicesLoop (iid : String) :
    Store → List (Option String) → List DeviceApiResp →
    DevicesOutcome × Store × List (Option String) × List String
  | store, _, [] => (.hung, store, [], [])
  | store, auths, r :: rest =>
    match get_token iid store auths with
    | (.tok t, store1, auths1) =>
      match r with
      | .nonJson txt => (.rawText txt, store1, auths1, [t])
      | .env code ds =>
        if code ≠ 0 then
          if code = PROTRACK_ERROR_CODE_EXPIRED_TOKEN then
            let store2 := deleteState store1 (tokenKey iid)
            let out := devicesLoop iid store2 auths1 rest
            (out.1, out.2.1, out.2.2.1, t :: out.2.2.2)
          else
            (.vendorError, store1, auths1, [t])
        else
          (.devices ds, store1, auths1, [t])
    | (res, store1, auths1) => (.tokenFailure res, store1, auths1, [])

/-- client.get_devices. -/
def get_devices (iid : String) (store : Store) (auths : List (Option String))
    (script : List DeviceApiResp) :
    DevicesOutcome × Store × List (Option String) × List String :=
  devicesLoop iid store auths script

/-! ## Python dict operations, for the transformer -/

def lookupVal : List (String × PyVal) → String → Option PyVal
  | [], _ => none
  | kv :: rest, k => if kv.1 = k then some kv.2 else lookupVal rest k

def removeKey (d : List (String × PyVal)) (k : String) : List (String × PyVal) :=
  d.filter (fun kv => decide (kv.1 ≠ k))

/-- Python dict.pop(k): the removed value together with the remaining
dict.  The source pops keys that device.dict() always contains, so the
KeyError of a missing key is unreachable and vnone stands in for it. -/
def popKey (d : List (String × PyVal)) (k : String) :
    PyVal × List (String × PyVal) :=
  ((lookupVal d k).getD .vnone, removeKey d k)

/-- Python dict item assignment d[k] = v: overwrite in place if the key
exists, else append. -/
def dictInsert (d : List (String × PyVal)) (k : String) (v : PyVal) :
    List (String × PyVal) :=
  if (lookupVal d k).isSome then
    d.map (fun kv => if kv.1 = k then (kv.1, v) else kv)
  else d ++ [(k, v)]

/-- Python dict splat {**d, **entries}: insert the entries of the second
dict into the first in order, later keys overwriting earlier ones. -/
def dictExtend (d entries : List (String × PyVal)) : List (String × PyVal) :=
  entries.foldl (fun acc kv => dictInsert acc kv.1 kv.2) d

/-! ## The observation transformer (handlers.transform) -/

/-- The canonical observation dict built by handlers.transform; the
location sub-dict is flattened into its two fields. -/
structure CanonicalObservation where
  source_name : PyVal
  source : PyVal
  type : String
  subject_type : String
  recorded_at : Int
  location_lat : String
  location_lon : String
  additional : List (String × PyVal)
deriving DecidableEq

/-- handlers.py lines 22-38, transform: copy the device dict, pop imei
and devicename to the top level, and build additional from the speed and
course of the record followed by the remaining device metadata. -/
def transform (device : List (String × PyVal)) (observation : PlaybackResponse) :
    CanonicalObservation :=
  let p1 := popKey device "imei"
  let p2 := popKey p1.2 "devicename"
  { source_name := p2.1
    source := p1.1
    type := "tracking-device"
    subject_type := "vehicle"
    recorded_at := observation.gpstime
    location_lat := observation.latitude
    location_lon := observation.longitude
    additional := dictExtend
      [("speed", .vint observation.speed), ("course", .vint observation.course)]
      p2.2 }

/-! ## The playback action (handlers.action_playback) -/

/-- Modelled from the spec: app.services.utils.generate_batches is not
under src; per spec section 4.7 the forwarder splits the observations
into fixed-size chunks, here with the chunk size 200 used at the call
site in handlers.py line 118. -/
def generate_batches : List CanonicalObservation → List (List CanonicalObservation)
  | [] => []
  | c :: rest => ((c :: rest).take 200) :: generate_batches ((c :: rest).drop 200)
termination_by l => l.length
decreasing_by simp [List.length_drop]; omega

/-- Modelled from the spec: app.services.gundi.send_observations_to_gundi
is not under src; per spec sections 2 and 4.7 it is an opaque downstream
batch sink returning the accepted items, modelled as accepting the whole
batch, so len(response) is the batch length. -/
def send_observations_to_gundi (batch : List CanonicalObservation) : Nat :=
  batch.length

/-- handlers.py line 124: max(observations, key=lambda obs: obs.gpstime)
followed by .gpstime; max on an empty list raises, but the call is
guarded by the truthiness of observations, so 0 never escapes. -/
def maxGpstime : List PlaybackResponse → Int
  | [] => 0
  | o :: rest => rest.foldl (fun m r => max m r.gpstime) o.gpstime

/-- What action_playback reports to the host: the returned
observations_extracted count, or a raised exception. -/
inductive PlaybackActionResult where
  | ok (observations_extracted : Nat)
  | raised
deriving DecidableEq

/-- handlers.py lines 105-145, action_playback.  A truthy observations
list is transformed, forwarded in batches of 200, and followed by the
checkpoint write state={"updated_at": ceil(latest_gpstime.timestamp())}
under (integration_id, "pull_observations", config.imei); gpstime is an
integer unix second, so the ceil is the identity.  A falsy result (the
empty list, None from a non-retryable vendor code, or the empty raw
text) reports zero extractions without writing; any other result raises
to the host. -/
def action_playback (iid : String) (cfg : PlaybackConfig) (store : Store)
    (script : List PlaybackApiResp) : PlaybackActionResult × Store :=
  match get_playback_observations iid cfg store script with
  | (.records obs, store1, _) =>
    match obs with
    | [] => (.ok 0, store1)
    | _ :: _ =>
      let transformed := obs.map (fun o => transform cfg.device_info o)
      let count :=
        ((generate_batches transformed).map send_observations_to_gundi).foldl
          (· + ·) 0
      let store2 := setState store1 (iid, "pull_observations", cfg.imei)
        (.checkpointState (maxGpstime obs))
      (.ok count, store2)
  | (.vendorError, store1, _) => (.ok 0, store1)
  | (.rawText t, store1, _) =>
    if t = "" then (.ok 0, store1) else (.raised, store1)
  | (.pyError, store1, _) => (.raised, store1)
  | (.hung, store1, _) => (.raised, store1)

/-! ## The pull-observations window (handlers.action_pull_observations) -/

/-- handlers.py lines 73-83: the begin time of the playback window for
one device.  now is the real-valued unix time of datetime.now; with no
stored device state the default lookback is applied with a ceil, else
the stored updated_at is used.  A stored dict without the updated_at key
would make begin_time None and the config validation fail, modelled by
none. -/
def playback_begin_time (store : Store) (iid imei : String) (now : ℚ)
    (default_lookback_days : ℤ) : Option ℤ :=
  match getState store (iid, "pull_observations", imei) with
  | none => some ⌈now - (default_lookback_days : ℚ) * 86400⌉
  | some (.checkpointState t) => some t
  | some (.tokenState _) => none

/-- handlers.py line 90: endtime = ceil(now.timestamp()). -/
def playback_end_time (now : ℚ) : ℤ := ⌈now⌉

/-! ## Statement vocabulary: scripts made of successful pages -/

/-- A record string whose split on ";" yields the given entries, written
directly as the separator-joined entries. -/
def joinPage : List String → String
  | [] => ""
  | [s] => s
  | s :: rest => s ++ ";" ++ joinPage rest

/-- A playback response script consisting of successful pages only. -/
def pagesScript (pages : List (List String)) : List PlaybackApiResp :=
  pages.map (fun p => .env 0 (some (joinPage p)))

/-- Field 2 (the gps_time) of the comma-split of the last entry of a
page: the value the paginator assigns to begintime after a full page. -/
def lastEntryGps (p : List String) : String :=
  ((pySplit (p.getLast?.getD "") ',').get? 2).getD ""

/-- The request parameters the paginator sends when it walks the given
pages: the first request keeps the incoming begintime and each later
request carries the cursor of the page before it. -/
def pageLog (cfg : PlaybackConfig) : List (List String) → List PlaybackRequest
  | [] => []
  | p :: rest =>
    ⟨cfg.access_token, cfg.begintime⟩ ::
      pageLog { cfg with begintime := lastEntryGps p } rest

/-- Well-formedness of the entries handed to the paginator in a pages
script: a nonempty wire string free of the page separator. -/
def EntryOk (s : String) : Prop := s ≠ "" ∧ ';' ∉ s.data

/-! ## Lemmas about the splitting and parsing primitives -/

theorem splitChars_ne_nil (sep : Char) (l : List Char) :
    splitChars sep l ≠ [] := by
  cases l with
  | nil => simp [splitChars]
  | cons c cs =>
    simp only [splitChars]
    cases hsc : splitChars sep cs with
    | nil => simp
    | cons g gs => by_cases hc : c = sep <;> simp [hc]

theorem splitChars_no_sep (sep : Char) (l : List Char) (h : sep ∉ l) :
    splitChars sep l = [l] := by
  induction l with
  | nil => rfl
  | cons c cs ih =>
    have hc : c ≠ sep := by
      rintro rfl; exact h (List.mem_cons_self _ _)
    have hcs : sep ∉ cs := fun hm => h (List.mem_cons_of_mem _ hm)
    simp only [splitChars, ih hcs]
    rw [if_neg hc]

theorem splitChars_append (sep : Char) (l r : List Char) (h : sep ∉ l) :
    splitChars sep (l ++ sep :: r) = l :: splitChars sep r := by
  induction l with
  | nil =>
    show splitChars sep (sep :: r) = [] :: splitChars sep r
    simp only [splitChars]
    cases hsc : splitChars sep r with
    | nil => exact absurd hsc (splitChars_ne_nil sep r)
    | cons g gs => simp
  | cons c cs ih =>
    have hc : c ≠ sep := by
      rintro rfl; exact h (List.mem_cons_self _ _)
    have hcs : sep ∉ cs := fun hm => h (List.mem_cons_of_mem _ hm)
    show splitChars sep (c :: (cs ++ sep :: r)) = (c :: cs) :: splitChars sep r
    simp only [splitChars]
    rw [ih hcs]
    simp [hc]

theorem joinPage_cons (s s2 : String) (rest : List String) :
    joinPage (s :: s2 :: rest) = s ++ ";" ++ joinPage (s2 :: rest) := rfl

theorem joinPage_ne_empty (s : String) (rest : List String) (hs : s ≠ "") :
    joinPage (s :: rest) ≠ "" := by
  cases rest with
  | nil => exact hs
  | cons s2 rest2 =>
    intro hcontra
    rw [joinPage_cons] at hcontra
    have hdata : s.data ++ [';'] ++ (joinPage (s2 :: rest2)).data
        = ("" : String).data := by
      show (s ++ ";" ++ joinPage (s2 :: rest2)).data = ("" : String).data
      rw [hcontra]
    simp at hdata

theorem pySplit_joinPage (p : List String) (hp : p ≠ [])
    (h : ∀ s ∈ p, ';' ∉ s.data) : pySplit (joinPage p) ';' = p := by
  induction p with
  | nil => exact absurd rfl hp
  | cons s rest ih =>
    cases rest with
    | nil =>
      show (splitChars ';' s.data).map (fun l => (⟨l⟩ : String)) = [s]
      rw [splitChars_no_sep _ _ (h s (List.mem_cons_self _ _))]
      rfl
    | cons s2 rest2 =>
      have hdata : (joinPage (s :: s2 :: rest2)).data
          = s.data ++ ';' :: (joinPage (s2 :: rest2)).data := by
        rw [joinPage_cons]
        show s.data ++ [';'] ++ (joinPage (s2 :: rest2)).data
            = s.data ++ ';' :: (joinPage (s2 :: rest2)).data
        rw [List.append_assoc]
        rfl
      show (splitChars ';' (joinPage (s :: s2 :: rest2)).data).map
          (fun l => (⟨l⟩ : String)) = s :: s2 :: rest2
      rw [hdata, splitChars_append _ _ _ (h s (List.mem_cons_self _ _))]
      have hrest : pySplit (joinPage (s2 :: rest2)) ';' = s2 :: rest2 :=
        ih (by simp) (fun x hx => h x (List.mem_cons_of_mem _ hx))
      simpa [pySplit] using hrest

theorem recordEntries_joinPage (p : List String) (h : ∀ s ∈ p, EntryOk s) :
    recordEntries (some (joinPage p)) = p := by
  cases p with
  | nil => rfl
  | cons s rest =>
    have hne : joinPage (s :: rest) ≠ "" :=
      joinPage_ne_empty s rest (h s (List.mem_cons_self _ _)).1
    show (if joinPage (s :: rest) = "" then [] else pySplit (joinPage (s :: rest)) ';')
        = s :: rest
    rw [if_neg hne]
    exact pySplit_joinPage _ (by simp) (fun x hx => (h x hx).2)

theorem parseAll_append (a b : List String) (ra rb : List PlaybackResponse)
    (ha : parseAll a = some ra) (hb : parseAll b = some rb) :
    parseAll (a ++ b) = some (ra ++ rb) := by
  induction a generalizing ra with
  | nil =>
    simp only [parseAll] at ha
    cases ha
    simpa using hb
  | cons s rest ih =>
    rw [List.cons_append]
    simp only [parseAll] at ha ⊢
    cases hx : parsePlaybackEntry s with
    | none => rw [hx] at ha; cases ha
    | some x =>
      rw [hx] at ha
      cases hr : parseAll rest with
      | none => rw [hr] at ha; cases ha
      | some xs =>
        rw [hr] at ha
        cases ha
        rw [ih xs hr]
        rfl

theorem parseAll_mem (l : List String) (rs : List PlaybackResponse)
    (h : parseAll l = some rs) (s : String) (hs : s ∈ l) :
    ∃ x, parsePlaybackEntry s = some x := by
  induction l generalizing rs with
  | nil => cases hs
  | cons a rest ih =>
    simp only [parseAll] at h
    cases hx : parsePlaybackEntry a with
    | none => rw [hx] at h; cases h
    | some x =>
      rw [hx] at h
      cases hr : parseAll rest with
      | none => rw [hr] at h; cases h
      | some xs =>
        rcases List.mem_cons.mp hs with rfl | hmem
        · exact ⟨x, hx⟩
        · exact ih xs hr hmem

theorem parseAll_replicate (e : String) (v : PlaybackResponse)
    (h : parsePlaybackEntry e = some v) (n : Nat) :
    parseAll (List.replicate n e) = some (List.replicate n v) := by
  induction n with
  | zero => rfl
  | succ m ih => simp only [List.replicate_succ, parseAll, h, ih]

theorem parsePlaybackEntry_field2 (s : String) (x : PlaybackResponse)
    (h : parsePlaybackEntry s = some x) :
    ∃ g, (pySplit s ',').get? 2 = some g := by
  simp only [parsePlaybackEntry] at h
  rcases hl : pySplit s ',' with _ | ⟨a, tl0⟩
  · rw [hl] at h; simp at h
  · rcases tl0 with _ | ⟨b, tl1⟩
    · rw [hl] at h; simp at h
    · rcases tl1 with _ | ⟨c, tl2⟩
      · rw [hl] at h; simp at h
      · exact ⟨c, rfl⟩

/-! ## Lemmas about the state store -/

theorem getState_setState_self (store : Store) (k : StateKey) (v : StateVal) :
    getState (setState store k v) k = some v := by
  simp [getState, setState]

theorem getState_erase_ne (store : Store) (k k2 : StateKey) (h : k2 ≠ k) :
    getState (store.filter (fun kv => decide (kv.1 ≠ k))) k2 = getState store k2 := by
  induction store with
  | nil => rfl
  | cons kv rest ih =>
    by_cases hk : kv.1 = k
    · have hk2 : ¬ (kv.1 = k2) := by rw [hk]; exact fun hh => h hh.symm
      simp only [getState] at ih ⊢
      rw [List.filter_cons_of_neg (by simp [hk]), List.find?_cons_of_neg _ (by simp [hk2])]
      exact ih
    · by_cases hkk : kv.1 = k2
      · simp only [getState]
        rw [List.filter_cons_of_pos (by simp [hk]), List.find?_cons_of_pos _ (by simp [hkk]),
            List.find?_cons_of_pos _ (by simp [hkk])]
      · simp only [getState] at ih ⊢
        rw [List.filter_cons_of_pos (by simp [hk]), List.find?_cons_of_neg _ (by simp [hkk]),
            List.find?_cons_of_neg _ (by simp [hkk])]
        exact ih

theorem getState_setState_ne (store : Store) (k : StateKey) (v : StateVal)
    (k2 : StateKey) (h : k2 ≠ k) :
    getState (setState store k v) k2 = getState store k2 := by
  have hne : ¬ (k = k2) := fun hh => h hh.symm
  simp only [setState, getState]
  rw [List.find?_cons_of_neg _ (by simpa using hne)]
  exact getState_erase_ne store k k2 h

theorem getState_deleteState_ne (store : Store) (k k2 : StateKey) (h : k2 ≠ k) :
    getState (deleteState store k) k2 = getState store k2 :=
  getState_erase_ne store k k2 h

theorem getState_deleteState_self (store : Store) (k : StateKey) :
    getState (deleteState store k) k = none := by
  induction store with
  | nil => rfl
  | cons kv rest ih =>
    by_cases hk : kv.1 = k
    · simp only [deleteState, getState] at ih ⊢
      rw [List.filter_cons_of_neg (by simp [hk])]
      exact ih
    · simp only [deleteState, getState] at ih ⊢
      rw [List.filter_cons_of_pos (by simp [hk]), List.find?_cons_of_neg _ (by simp [hk])]
      exact ih

/-! ## Lemmas about the pagination loop -/

theorem playbackLoop_log_head (iid : String) (cfg : PlaybackConfig) (store : Store)
    (acc : List String) (r : PlaybackApiResp) (rest : List PlaybackApiResp) :
    ((playbackLoop iid cfg store acc (r :: rest)).2.2).get? 0
      = some ⟨cfg.access_token, cfg.begintime⟩ := by
  cases r with
  | nonJson t => rfl
  | env code record =>
    simp only [playbackLoop]
    by_cases h0 : code ≠ 0
    · rw [if_pos h0]
      by_cases h1 : code = PROTRACK_ERROR_CODE_EXPIRED_TOKEN
      · rw [if_pos h1]; rfl
      · rw [if_neg h1]; rfl
    · rw [if_neg h0]
      by_cases h2 : (recordEntries record).length = PROTRACK_MAX_OBSERVATIONS_RESPONSE
      · rw [if_pos h2]
        cases hc : (pySplit ((recordEntries record).getLast?.getD "") ',').get? 2 <;> rfl
      · rw [if_neg h2]
        by_cases h3 : (recordEntries record).length < PROTRACK_MAX_OBSERVATIONS_RESPONSE
        · rw [if_pos h3]
          cases hp : parseAll (acc ++ recordEntries record) <;> rfl
        · rw [if_neg h3]; rfl

theorem playbackLoop_store_frame (iid : String) (k : StateKey) (h : k ≠ tokenKey iid)
    (script : List PlaybackApiResp) :
    ∀ (cfg : PlaybackConfig) (store : Store) (acc : List String),
    getState (playbackLoop iid cfg store acc script).2.1 k = getState store k := by
  induction script with
  | nil => intro cfg store acc; rfl
  | cons r rest ih =>
    intro cfg store acc
    cases r with
    | nonJson t => rfl
    | env code record =>
      simp only [playbackLoop]
      by_cases h0 : code ≠ 0
      · rw [if_pos h0]
        by_cases h1 : code = PROTRACK_ERROR_CODE_EXPIRED_TOKEN
        · rw [if_pos h1]
          exact (ih _ _ _).trans (getState_deleteState_ne store (tokenKey iid) k h)
        · rw [if_neg h1]
      · rw [if_neg h0]
        by_cases h2 : (recordEntries record).length = PROTRACK_MAX_OBSERVATIONS_RESPONSE
        · rw [if_pos h2]
          cases hc : (pySplit ((recordEntries record).getLast?.getD "") ',').get? 2
          · rfl
          · exact ih _ _ _
        · rw [if_neg h2]
          by_cases h3 : (recordEntries record).length < PROTRACK_MAX_OBSERVATIONS_RESPONSE
          · rw [if_pos h3]
            cases hp : parseAll (acc ++ recordEntries record) <;> rfl
          · rw [if_neg h3]
            exact ih _ _ _

theorem pageLog_length (pages : List (List String)) :
    ∀ cfg : PlaybackConfig, (pageLog cfg pages).length = pages.length := by
  induction pages with
  | nil => intro cfg; rfl
  | cons p rest ih => intro cfg; simp [pageLog, ih]

theorem lastEntryGps_eq (p : List String) (e g : String)
    (he : p.getLast? = some e) (hg : (pySplit e ',').get? 2 = some g) :
    lastEntryGps p = g := by
  unfold lastEntryGps
  rw [he]
  show ((pySplit e ',').get? 2).getD "" = g
  rw [hg]
  rfl

theorem playbackLoop_step_full (iid : String) (cfg : PlaybackConfig)
    (store : Store) (acc : List String) (record : Option String)
    (rest : List PlaybackApiResp) (p : List String) (g : String)
    (hobs : recordEntries record = p)
    (hfull : p.length = PROTRACK_MAX_OBSERVATIONS_RESPONSE)
    (hcur : (pySplit (p.getLast?.getD "") ',').get? 2 = some g) :
    playbackLoop iid cfg store acc (.env 0 record :: rest)
      = ((playbackLoop iid { cfg with begintime := g } store (acc ++ p) rest).1,
         (playbackLoop iid { cfg with begintime := g } store (acc ++ p) rest).2.1,
         ⟨cfg.access_token, cfg.begintime⟩ ::
           (playbackLoop iid { cfg with begintime := g } store (acc ++ p) rest).2.2) := by
  simp only [playbackLoop]
  rw [if_neg (by simp : ¬ ((0:Int) ≠ 0)), hobs, if_pos hfull]
  simp only [hcur]

theorem playbackLoop_step_last (iid : String) (cfg : PlaybackConfig)
    (store : Store) (acc : List String) (record : Option String)
    (rest : List PlaybackApiResp) (p : List String) (rs : List PlaybackResponse)
    (hobs : recordEntries record = p)
    (hlt : p.length < PROTRACK_MAX_OBSERVATIONS_RESPONSE)
    (hparse : parseAll (acc ++ p) = some rs) :
    playbackLoop iid cfg store acc (.env 0 record :: rest)
      = (.records rs, store, [⟨cfg.access_token, cfg.begintime⟩]) := by
  simp only [playbackLoop]
  rw [if_neg (by simp : ¬ ((0:Int) ≠ 0)), hobs,
      if_neg (Nat.ne_of_lt hlt), if_pos hlt, hparse]

theorem playbackLoop_pages (iid : String) (pages : List (List String)) :
    ∀ (acc : List String) (rs : List PlaybackResponse) (cfg : PlaybackConfig)
      (store : Store),
    pages ≠ [] →
    (∀ p ∈ pages.dropLast, p.length = PROTRACK_MAX_OBSERVATIONS_RESPONSE) →
    (pages.getLast?.getD []).length < PROTRACK_MAX_OBSERVATIONS_RESPONSE →
    (∀ p ∈ pages, ∀ s ∈ p, EntryOk s) →
    parseAll (acc ++ pages.flatten) = some rs →
    playbackLoop iid cfg store acc (pagesScript pages)
      = (.records rs, store, pageLog cfg pages) := by
  induction pages with
  | nil => intro acc rs cfg store hne _ _ _ _; exact absurd rfl hne
  | cons p rest ih =>
    intro acc rs cfg store _ hfull hlast hok hparse
    have hobs : recordEntries (some (joinPage p)) = p :=
      recordEntries_joinPage p (fun s hs => hok p (List.mem_cons_self _ _) s hs)
    cases rest with
    | nil =>
      have hplen : p.length < PROTRACK_MAX_OBSERVATIONS_RESPONSE := by
        simpa using hlast
      have hparse2 : parseAll (acc ++ p) = some rs := by
        simpa using hparse
      show playbackLoop iid cfg store acc (.env 0 (some (joinPage p)) :: pagesScript [])
          = (.records rs, store, pageLog cfg [p])
      rw [playbackLoop_step_last iid cfg store acc _ _ p rs hobs hplen hparse2]
      rfl
    | cons p2 rest2 =>
      have hp : p.length = PROTRACK_MAX_OBSERVATIONS_RESPONSE :=
        hfull p (by
          rw [show (p :: p2 :: rest2).dropLast = p :: (p2 :: rest2).dropLast from rfl]
          exact List.mem_cons_self _ _)
      have hpne : p ≠ [] := by
        intro hh
        rw [hh] at hp
        simp [PROTRACK_MAX_OBSERVATIONS_RESPONSE] at hp
      have he : p.getLast? = some (p.getLast hpne) := List.getLast?_eq_getLast p hpne
      have hemem : p.getLast hpne ∈ acc ++ (p :: p2 :: rest2).flatten := by
        refine List.mem_append_right _ ?_
        exact List.mem_flatten.mpr ⟨p, List.mem_cons_self _ _,
          List.mem_of_mem_getLast? he⟩
      obtain ⟨x, hx⟩ := parseAll_mem _ _ hparse _ hemem
      obtain ⟨g, hg⟩ := parsePlaybackEntry_field2 _ x hx
      have hle : lastEntryGps p = g := lastEntryGps_eq p _ g he hg
      have hparse2 : parseAll ((acc ++ p) ++ (p2 :: rest2).flatten) = some rs := by
        rw [List.append_assoc]
        simpa [List.flatten_cons] using hparse
      have hrec := ih (acc ++ p) rs { cfg with begintime := g } store (by simp)
        (fun q hq => hfull q (by
          rw [show (p :: p2 :: rest2).dropLast = p :: (p2 :: rest2).dropLast from rfl]
          exact List.mem_cons_of_mem _ hq))
        (by simpa using hlast)
        (fun q hq s hs => hok q (List.mem_cons_of_mem _ hq) s hs)
        hparse2
      have hcur : (pySplit (p.getLast?.getD "") ',').get? 2 = some g := by
        rw [he]; exact hg
      show playbackLoop iid cfg store acc
          (.env 0 (some (joinPage p)) :: pagesScript (p2 :: rest2))
          = (.records rs, store, pageLog cfg (p :: p2 :: rest2))
      rw [playbackLoop_step_full iid cfg store acc _ _ p g hobs hp hcur, hrec]
      simp [pageLog, hle]

theorem playbackLoop_step_expired (iid : String) (cfg : PlaybackConfig)
    (store : Store) (acc : List String) (record : Option String)
    (rest : List PlaybackApiResp) (code : Int)
    (h0 : code ≠ 0) (h1 : code = PROTRACK_ERROR_CODE_EXPIRED_TOKEN) :
    playbackLoop iid cfg store acc (.env code record :: rest)
      = ((playbackLoop iid cfg (deleteState store (tokenKey iid)) [] rest).1,
         (playbackLoop iid cfg (deleteState store (tokenKey iid)) [] rest).2.1,
         ⟨cfg.access_token, cfg.begintime⟩ ::
           (playbackLoop iid cfg (deleteState store (tokenKey iid)) [] rest).2.2) := by
  simp only [playbackLoop]
  rw [if_pos h0, if_pos h1]

theorem playbackLoop_step_overflow (iid : String) (cfg : PlaybackConfig)
    (store : Store) (acc : List String) (record : Option String)
    (rest : List PlaybackApiResp)
    (h2 : ¬ (recordEntries record).length = PROTRACK_MAX_OBSERVATIONS_RESPONSE)
    (h3 : ¬ (recordEntries record).length < PROTRACK_MAX_OBSERVATIONS_RESPONSE) :
    playbackLoop iid cfg store acc (.env 0 record :: rest)
      = ((playbackLoop iid cfg store (acc ++ recordEntries record) rest).1,
         (playbackLoop iid cfg store (acc ++ recordEntries record) rest).2.1,
         ⟨cfg.access_token, cfg.begintime⟩ ::
           (playbackLoop iid cfg store (acc ++ recordEntries record) rest).2.2) := by
  simp only [playbackLoop]
  rw [if_neg (by simp : ¬ ((0:Int) ≠ 0)), if_neg h2, if_neg h3]

theorem playbackLoop_cursor (iid : String) (r g : String)
    (hr : r ≠ "")
    (hlen : (pySplit r ';').length = PROTRACK_MAX_OBSERVATIONS_RESPONSE)
    (hg : (pySplit ((pySplit r ';').getLast?.getD "") ',').get? 2 = some g)
    (script : List PlaybackApiResp) :
    ∀ (i : Nat) (cfg : PlaybackConfig) (store : Store) (acc : List String),
    script.get? i = some (.env 0 (some r)) →
    i + 1 < (playbackLoop iid cfg store acc script).2.2.length →
    ((playbackLoop iid cfg store acc script).2.2.get? (i+1)).map
        (fun q => q.begintime) = some g := by
  induction script with
  | nil => intro i cfg store acc hi; simp at hi
  | cons r0 rest ih =>
    intro i cfg store acc hi hnext
    cases i with
    | zero =>
      have hi2 : r0 = PlaybackApiResp.env 0 (some r) := by
        have : some r0 = some (PlaybackApiResp.env 0 (some r)) := hi
        injection this
      subst hi2
      have hobs : recordEntries (some r) = pySplit r ';' := by
        simp [recordEntries, hr]
      rw [playbackLoop_step_full iid cfg store acc (some r) rest (pySplit r ';')
            g hobs hlen hg] at hnext ⊢
      cases rest with
      | nil => simp [playbackLoop] at hnext
      | cons r1 rest1 =>
        show (((playbackLoop iid { cfg with begintime := g } store
            (acc ++ pySplit r ';') (r1 :: rest1)).2.2).get? 0).map
            (fun q => q.begintime) = some g
        rw [playbackLoop_log_head]
        rfl
    | succ j =>
      cases r0 with
      | nonJson t => simp [playbackLoop] at hnext
      | env code record =>
        by_cases h0 : code ≠ 0
        · by_cases h1 : code = PROTRACK_ERROR_CODE_EXPIRED_TOKEN
          · rw [playbackLoop_step_expired iid cfg store acc record rest code h0 h1]
              at hnext ⊢
            simp only [List.length_cons] at hnext
            exact ih j _ _ _ (by simpa using hi) (by omega)
          · have hterm : playbackLoop iid cfg store acc (.env code record :: rest)
                = (.vendorError, store, [⟨cfg.access_token, cfg.begintime⟩]) := by
              simp only [playbackLoop]
              rw [if_pos h0, if_neg h1]
            rw [hterm] at hnext
            simp at hnext
        · have hc0 : code = 0 := not_not.mp h0
          subst hc0
          by_cases h2 : (recordEntries record).length
              = PROTRACK_MAX_OBSERVATIONS_RESPONSE
          · cases hc : (pySplit ((recordEntries record).getLast?.getD "") ',').get? 2
              with
            | none =>
              have hterm : playbackLoop iid cfg store acc (.env 0 record :: rest)
                  = (.pyError, store, [⟨cfg.access_token, cfg.begintime⟩]) := by
                simp only [playbackLoop]
                rw [if_neg (by simp : ¬ ((0:Int) ≠ 0)), if_pos h2]
                simp only [hc]
              rw [hterm] at hnext
              simp at hnext
            | some ts =>
              rw [playbackLoop_step_full iid cfg store acc record rest
                    (recordEntries record) ts rfl h2 hc] at hnext ⊢
              simp only [List.length_cons] at hnext
              exact ih j _ _ _ (by simpa using hi) (by omega)
          · by_cases h3 : (recordEntries record).length
                < PROTRACK_MAX_OBSERVATIONS_RESPONSE
            · cases hp : parseAll (acc ++ recordEntries record) with
              | none =>
                have hterm : playbackLoop iid cfg store acc (.env 0 record :: rest)
                    = (.pyError, store, [⟨cfg.access_token, cfg.begintime⟩]) := by
                  simp only [playbackLoop]
                  rw [if_neg (by simp : ¬ ((0:Int) ≠ 0)), if_neg h2, if_pos h3]
                  simp only [hp]
                rw [hterm] at hnext
                simp at hnext
              | some rs2 =>
                rw [playbackLoop_step_last iid cfg store acc record rest
                      (recordEntries record) rs2 rfl h3 hp] at hnext
                simp at hnext
            · rw [playbackLoop_step_overflow iid cfg store acc record rest h2 h3]
                at hnext ⊢
              simp only [List.length_cons] at hnext
              exact ih j _ _ _ (by simpa using hi) (by omega)

theorem getLast?_replicate_succ {α : Type} (x : α) (n : Nat) :
    (List.replicate (n + 1) x).getLast? = some x := by
  induction n with
  | zero => rfl
  | succ m ih =>
    rw [List.replicate_succ, List.replicate_succ]
    rw [List.getLast?_cons_cons]
    rw [← List.replicate_succ]
    exact ih

/-- C1.  For every sequence of playback pages in which each page has
exactly 1000 records except the last, which has fewer, the paginator of
get_playback_observations issues exactly one request per page and
returns the concatenation of all pages records, parsed into
PlaybackResponse values, in the order the vendor returned them. -/
theorem c1_pagination_requests_and_concatenation (iid : String)
    (pages : List (List String)) (rs : List PlaybackResponse)
    (cfg : PlaybackConfig) (store : Store)
    (hne : pages ≠ [])
    (hfull : ∀ p ∈ pages.dropLast, p.length = PROTRACK_MAX_OBSERVATIONS_RESPONSE)
    (hlast : (pages.getLast?.getD []).length < PROTRACK_MAX_OBSERVATIONS_RESPONSE)
    (hok : ∀ p ∈ pages, ∀ s ∈ p, EntryOk s)
    (hparse : parseAll pages.flatten = some rs) :
    (get_playback_observations iid cfg store (pagesScript pages)).1 = .records rs
    ∧ (get_playback_observations iid cfg store (pagesScript pages)).2.2.length
        = pages.length := by
  have h := playbackLoop_pages iid pages [] rs cfg store hne hfull hlast hok
    (by simpa using hparse)
  unfold get_playback_observations
  rw [h]
  exact ⟨rfl, pageLog_length pages cfg⟩

/-- Witness for C1: a concrete one-page run returning its single record
parsed, with exactly one request issued. -/
theorem c1_pagination_witness :
    parseAll [["1.0,2.0,100,5,90"]].flatten
        = some [{ longitude := "1.0", latitude := "2.0", gpstime := 100,
                  speed := 5, course := 90 }]
    ∧ (get_playback_observations "i1" ⟨"tok", [], "dev1", "0", 10, 1000⟩ []
          (pagesScript [["1.0,2.0,100,5,90"]])).1
        = .records [{ longitude := "1.0", latitude := "2.0", gpstime := 100,
                      speed := 5, course := 90 }]
    ∧ (get_playback_observations "i1" ⟨"tok", [], "dev1", "0", 10, 1000⟩ []
          (pagesScript [["1.0,2.0,100,5,90"]])).2.2.length = 1 := by
  have h := c1_pagination_requests_and_concatenation "i1" [["1.0,2.0,100,5,90"]]
    [{ longitude := "1.0", latitude := "2.0", gpstime := 100,
       speed := 5, course := 90 }]
    ⟨"tok", [], "dev1", "0", 10, 1000⟩ []
    (by decide) (by simp) (by decide)
    (by
      intro p hp s hs
      rcases List.mem_singleton.mp hp with rfl
      rcases List.mem_singleton.mp hs with rfl
      exact ⟨by decide, by decide⟩)
    (by decide)
  exact ⟨by decide, h.1, h.2⟩

/-- C2.  Whenever a playback page has exactly 1000 records, the
begintime parameter of the immediately following playback request equals
the gps_time field of the last record of that page, bit-exact (the raw
wire string g, field 2 of the comma-split of the last entry). -/
theorem c2_cursor_advancement (iid : String) (script : List PlaybackApiResp)
    (cfg : PlaybackConfig) (store : Store) (i : Nat) (r g : String)
    (hi : script.get? i = some (.env 0 (some r)))
    (hr : r ≠ "")
    (hlen : (pySplit r ';').length = PROTRACK_MAX_OBSERVATIONS_RESPONSE)
    (hg : (pySplit ((pySplit r ';').getLast?.getD "") ',').get? 2 = some g)
    (hnext : i + 1 < (get_playback_observations iid cfg store script).2.2.length) :
    (((get_playback_observations iid cfg store script).2.2.get? (i+1)).map
        (fun q => q.begintime)) = some g :=
  playbackLoop_cursor iid r g hr hlen hg script i cfg store [] hi hnext

/-- Witness for C2: on a two-page script whose first page holds 1000
copies of the record 1,2,3,4,5, the second request carries begintime
"3", the raw gps_time field of the last record of the first page. -/
theorem c2_cursor_witness :
    (pySplit (joinPage (List.replicate 1000 "1,2,3,4,5")) ';').length
        = PROTRACK_MAX_OBSERVATIONS_RESPONSE
    ∧ (((get_playback_observations "i1" ⟨"tok", [], "dev1", "0", 10, 1000⟩ []
          (pagesScript [List.replicate 1000 "1,2,3,4,5", ["1,2,3,4,5"]])).2.2.get?
            1).map (fun q => q.begintime)) = some "3" := by
  have hPne : List.replicate 1000 "1,2,3,4,5" ≠ [] := by
    intro h
    have h2 := congrArg List.length h
    rw [List.length_replicate] at h2
    exact absurd h2 (by decide)
  have hPok : ∀ s ∈ List.replicate 1000 "1,2,3,4,5", ';' ∉ s.data := by
    intro s hs
    rcases (List.mem_replicate.mp hs).2 with rfl
    decide
  have hsplit : pySplit (joinPage (List.replicate 1000 "1,2,3,4,5")) ';'
      = List.replicate 1000 "1,2,3,4,5" :=
    pySplit_joinPage _ hPne hPok
  have hr : joinPage (List.replicate 1000 "1,2,3,4,5") ≠ "" := by
    rw [show (1000:Nat) = 999+1 from rfl, List.replicate_succ]
    exact joinPage_ne_empty _ _ (by decide)
  have hlen : (pySplit (joinPage (List.replicate 1000 "1,2,3,4,5")) ';').length
      = PROTRACK_MAX_OBSERVATIONS_RESPONSE := by
    rw [hsplit, List.length_replicate]
    rfl
  have hg : (pySplit ((pySplit (joinPage (List.replicate 1000 "1,2,3,4,5"))
      ';').getLast?.getD "") ',').get? 2 = some "3" := by
    rw [hsplit, show (1000:Nat) = 999+1 from rfl, getLast?_replicate_succ]
    decide
  have hparse : parseAll ([List.replicate 1000 "1,2,3,4,5",
      ["1,2,3,4,5"]].flatten)
      = some (List.replicate 1000
          { longitude := "1", latitude := "2", gpstime := 3, speed := 4,
            course := 5 } ++
          [{ longitude := "1", latitude := "2", gpstime := 3, speed := 4,
             course := 5 }]) := by
    have h1 := parseAll_replicate "1,2,3,4,5"
      { longitude := "1", latitude := "2", gpstime := 3, speed := 4, course := 5 }
      (by decide) 1000
    have h2 : parseAll ["1,2,3,4,5"]
        = some [{ longitude := "1", latitude := "2", gpstime := 3, speed := 4,
                  course := 5 }] := by decide
    exact parseAll_append _ _ _ _ h1 h2
  have hrun := playbackLoop_pages "i1"
    [List.replicate 1000 "1,2,3,4,5", ["1,2,3,4,5"]] []
    (List.replicate 1000
        { longitude := "1", latitude := "2", gpstime := 3, speed := 4,
          course := 5 } ++
      [{ longitude := "1", latitude := "2", gpstime := 3, speed := 4,
         course := 5 }])
    ⟨"tok", [], "dev1", "0", 10, 1000⟩ []
    (List.cons_ne_nil _ _)
    (by
      intro q hq
      rcases List.mem_singleton.mp hq with rfl
      rw [List.length_replicate]
      rfl)
    (by rw [List.getLast?_cons_cons]; decide)
    (by
      intro p hp s hs
      rcases List.mem_cons.mp hp with rfl | hp2
      · rcases (List.mem_replicate.mp hs).2 with rfl
        exact ⟨by decide, by decide⟩
      · rcases List.mem_singleton.mp hp2 with rfl
        rcases List.mem_singleton.mp hs with rfl
        exact ⟨by decide, by decide⟩)
    (by exact hparse)
  have hnext : 0 + 1 < (get_playback_observations "i1"
      ⟨"tok", [], "dev1", "0", 10, 1000⟩ []
      (pagesScript [List.replicate 1000 "1,2,3,4,5", ["1,2,3,4,5"]])).2.2.length := by
    unfold get_playback_observations
    rw [hrun, pageLog_length]
    decide
  exact ⟨hlen, c2_cursor_advancement "i1"
    (pagesScript [List.replicate 1000 "1,2,3,4,5", ["1,2,3,4,5"]])
    ⟨"tok", [], "dev1", "0", 10, 1000⟩ [] 0 (joinPage (List.replicate 1000 "1,2,3,4,5"))
    "3" rfl hr hlen hg hnext⟩

/-! ## Lemmas and claims about the token retry behaviour -/

theorem devicesLoop_step_expired (iid : String) (store : Store)
    (auths : List (Option String)) (t : String) (store1 : Store)
    (auths1 : List (Option String)) (record : List DeviceResponse)
    (rest : List DeviceApiResp)
    (htok : get_token iid store auths = (.tok t, store1, auths1)) :
    devicesLoop iid store auths
        (.env PROTRACK_ERROR_CODE_EXPIRED_TOKEN record :: rest)
      = ((devicesLoop iid (deleteState store1 (tokenKey iid)) auths1 rest).1,
         (devicesLoop iid (deleteState store1 (tokenKey iid)) auths1 rest).2.1,
         (devicesLoop iid (deleteState store1 (tokenKey iid)) auths1 rest).2.2.1,
         t :: (devicesLoop iid (deleteState store1 (tokenKey iid)) auths1
            rest).2.2.2) := by
  simp only [devicesLoop]
  simp only [htok]
  rw [if_pos (show PROTRACK_ERROR_CODE_EXPIRED_TOKEN ≠ 0 from by decide)]
  simp

/-- Counterexample for C3: with a cached token t0, two consecutive
10012 responses and then a success, get_devices issues a third request
(with a second freshly fetched token t2) and succeeds.  The second
consecutive expired-token response is therefore retried again, contrary
to the claim that the request is retried at most once and that a second
consecutive 10012 response is not retried. -/
theorem c3_second_expired_still_retried :
    get_devices "i1" [(tokenKey "i1", .tokenState "t0")] [some "t1", some "t2"]
        [.env 10012 [], .env 10012 [], .env 0 []]
      = (.devices [], [(tokenKey "i1", .tokenState "t2")], [],
         ["t0", "t1", "t2"]) := by
  decide

/-- C3 amended: on vendor code 10012 from device-list or playback the
cached token is deleted from the state store and the same logical
request is automatically retried, but the retry count is unbounded: for
every n, a run of n+1 consecutive 10012 device-list responses is
followed by n+1 further requests (each with a freshly fetched token)
until a success; and a playback retry after 10012 reuses the very
access_token already inside the config instead of fetching a fresh one,
while the cached token entry is deleted. -/
theorem c3_amended_unbounded_retry :
    (∀ (n : Nat) (ds : List DeviceResponse),
      get_devices "i1" [] (List.replicate (n+2) (some "t"))
          (List.replicate (n+1) (.env 10012 []) ++ [.env 0 ds])
        = (.devices ds, [(tokenKey "i1", .tokenState "t")], [],
           List.replicate (n+2) "t"))
    ∧ (∀ (iid : String) (cfg : PlaybackConfig),
      get_playback_observations iid cfg [(tokenKey iid, .tokenState "cached")]
          [.env PROTRACK_ERROR_CODE_EXPIRED_TOKEN none, .env 0 none]
        = (.records [], [],
           [⟨cfg.access_token, cfg.begintime⟩,
            ⟨cfg.access_token, cfg.begintime⟩])) := by
  constructor
  · intro n
    induction n with
    | zero => intro ds; rfl
    | succ m ih =>
      intro ds
      show get_devices "i1" []
          (some "t" :: List.replicate (m+2) (some "t"))
          (.env PROTRACK_ERROR_CODE_EXPIRED_TOKEN [] ::
            (List.replicate (m+1) (.env 10012 []) ++ [.env 0 ds]))
        = (.devices ds, [(tokenKey "i1", StateVal.tokenState "t")], [],
           "t" :: List.replicate (m+2) "t")
      unfold get_devices
      rw [devicesLoop_step_expired "i1" []
            (some "t" :: List.replicate (m+2) (some "t")) "t"
            [(tokenKey "i1", StateVal.tokenState "t")]
            (List.replicate (m+2) (some "t")) [] _ rfl]
      rw [show deleteState [(tokenKey "i1", StateVal.tokenState "t")] (tokenKey "i1")
            = ([] : Store) from rfl]
      have ih2 := ih ds
      unfold get_devices at ih2
      rw [ih2]
  · intro iid cfg
    unfold get_playback_observations
    rw [playbackLoop_step_expired iid cfg [(tokenKey iid, .tokenState "cached")] []
          none [PlaybackApiResp.env 0 none] PROTRACK_ERROR_CODE_EXPIRED_TOKEN
          (by decide) rfl]
    rw [show deleteState [(tokenKey iid, StateVal.tokenState "cached")] (tokenKey iid)
          = ([] : Store) from by simp [deleteState]]
    rw [playbackLoop_step_last iid cfg [] [] none [] [] [] rfl (by decide) rfl]

/-- C4: when no token is cached and the authorization endpoint yields no
token, get_token takes the raise at client.py line 77, which calls
ProTrackUnauthorizedException(message) with one positional argument
although the constructor requires (error, message, status_code=401), so
Python raises TypeError; the intended Unauthorized error carrying the
original cause and a descriptive message is never constructed.  The
theorem evaluates the model at that failing input. -/
theorem c4_no_token_raises_type_error :
    get_token "i1" [] [none] = (.typeErr, [], []) := rfl

/-- C6: a playback cycle in which the vendor returns zero records (a
code-0 envelope with a missing or empty record field) reports
observations_extracted = 0 and leaves the whole state store unchanged;
no checkpoint is written. -/
theorem c6_zero_records_zero_count_no_write (iid : String) (cfg : PlaybackConfig)
    (store : Store) (tail : List PlaybackApiResp) :
    action_playback iid cfg store (.env 0 none :: tail) = (.ok 0, store)
    ∧ action_playback iid cfg store (.env 0 (some "") :: tail) = (.ok 0, store) :=
  ⟨rfl, rfl⟩

/-- C9: when a token dict is cached in the state store, get_token
returns the cached access_token, performs no authorization request (the
auth script is not consumed) and leaves the store untouched. -/
theorem c9_cached_token_returned_without_effects (iid s : String) (store : Store)
    (auths : List (Option String))
    (h : getState store (tokenKey iid) = some (.tokenState s)) :
    get_token iid store auths = (.tok s, store, auths) := by
  unfold get_token
  rw [h]

/-- Witness for C9 at a concrete cached token. -/
theorem c9_cached_token_witness :
    getState [(tokenKey "i1", StateVal.tokenState "abc")] (tokenKey "i1")
        = some (.tokenState "abc")
    ∧ get_token "i1" [(tokenKey "i1", StateVal.tokenState "abc")] [some "other"]
        = (.tok "abc", [(tokenKey "i1", StateVal.tokenState "abc")],
           [some "other"]) :=
  ⟨by decide,
   c9_cached_token_returned_without_effects "i1" "abc"
     [(tokenKey "i1", StateVal.tokenState "abc")] [some "other"] (by decide)⟩

/-- C10: the checkpoint write of action_playback uses the key
(integration_id, "pull_observations", imei), the same namespace that
get_token uses with source_id "token"; for a device whose imei is the
literal string "token", a successful playback cycle overwrites the
cached auth-token entry with a checkpoint dict. -/
theorem c10_checkpoint_overwrites_token_entry (iid tok : String)
    (cfg : PlaybackConfig) (store : Store)
    (himei : cfg.imei = "token")
    (_hstore : getState store (tokenKey iid) = some (.tokenState tok)) :
    getState (action_playback iid cfg store
        [.env 0 (some "1.0,2.0,777,5,90")]).2 (tokenKey iid)
      = some (.checkpointState 777) := by
  have hrun : get_playback_observations iid cfg store
      [.env 0 (some "1.0,2.0,777,5,90")]
      = (.records [⟨"1.0", "2.0", 777, 5, 90⟩], store,
         [⟨cfg.access_token, cfg.begintime⟩]) := by
    unfold get_playback_observations
    exact playbackLoop_step_last iid cfg store [] (some "1.0,2.0,777,5,90") []
      ["1.0,2.0,777,5,90"] [⟨"1.0", "2.0", 777, 5, 90⟩] rfl (by decide) rfl
  unfold action_playback
  simp only [hrun]
  rw [himei]
  exact getState_setState_self store (tokenKey iid) _

/-- Witness for C10: a concrete store holding a cached token under
(i1, pull_observations, token) loses it to the checkpoint write of a
playback cycle for the device with imei "token". -/
theorem c10_checkpoint_overwrites_token_witness :
    (⟨"tok", [], "token", "0", 10, 1000⟩ : PlaybackConfig).imei = "token"
    ∧ getState [(tokenKey "i1", StateVal.tokenState "abc")] (tokenKey "i1")
        = some (.tokenState "abc")
    ∧ getState (action_playback "i1" ⟨"tok", [], "token", "0", 10, 1000⟩
        [(tokenKey "i1", StateVal.tokenState "abc")]
        [.env 0 (some "1.0,2.0,777,5,90")]).2 (tokenKey "i1")
      = some (.checkpointState 777) :=
  ⟨rfl, by decide,
   c10_checkpoint_overwrites_token_entry "i1" "abc"
     ⟨"tok", [], "token", "0", 10, 1000⟩
     [(tokenKey "i1", StateVal.tokenState "abc")] rfl (by decide)⟩

/-! ## Lemmas and claims about the checkpoint write -/

theorem foldl_gps_init_le (l : List PlaybackResponse) :
    ∀ a : Int, a ≤ l.foldl (fun m r => max m r.gpstime) a := by
  induction l with
  | nil => intro a; exact le_refl a
  | cons x xs ih =>
    intro a
    exact le_trans (le_max_left a x.gpstime) (ih (max a x.gpstime))

theorem foldl_gps_mem_le (l : List PlaybackResponse) :
    ∀ (a : Int) (o : PlaybackResponse), o ∈ l →
      o.gpstime ≤ l.foldl (fun m r => max m r.gpstime) a := by
  induction l with
  | nil => intro a o h; cases h
  | cons x xs ih =>
    intro a o h
    rcases List.mem_cons.mp h with rfl | hmem
    · exact le_trans (le_max_right a o.gpstime) (foldl_gps_init_le xs _)
    · exact ih (max a x.gpstime) o hmem

theorem foldl_gps_mem_or (l : List PlaybackResponse) :
    ∀ a : Int, l.foldl (fun m r => max m r.gpstime) a = a
      ∨ ∃ o ∈ l, l.foldl (fun m r => max m r.gpstime) a = o.gpstime := by
  induction l with
  | nil => intro a; exact Or.inl rfl
  | cons x xs ih =>
    intro a
    rcases ih (max a x.gpstime) with h | ⟨o, ho, he⟩
    · rcases le_total x.gpstime a with hle | hle
      · left
        show xs.foldl (fun m r => max m r.gpstime) (max a x.gpstime) = a
        rw [h, max_eq_left hle]
      · right
        refine ⟨x, List.mem_cons_self _ _, ?_⟩
        show xs.foldl (fun m r => max m r.gpstime) (max a x.gpstime) = x.gpstime
        rw [h, max_eq_right hle]
    · exact Or.inr ⟨o, List.mem_cons_of_mem _ ho, he⟩

theorem maxGpstime_ge (obs : List PlaybackResponse) (o : PlaybackResponse)
    (h : o ∈ obs) : o.gpstime ≤ maxGpstime obs := by
  cases obs with
  | nil => cases h
  | cons a l =>
    rcases List.mem_cons.mp h with rfl | hmem
    · exact foldl_gps_init_le l o.gpstime
    · exact foldl_gps_mem_le l a.gpstime o hmem

theorem maxGpstime_mem (obs : List PlaybackResponse) (h : obs ≠ []) :
    ∃ o ∈ obs, maxGpstime obs = o.gpstime := by
  cases obs with
  | nil => exact absurd rfl h
  | cons a l =>
    rcases foldl_gps_mem_or l a.gpstime with h2 | ⟨o, ho, he⟩
    · exact ⟨a, List.mem_cons_self _ _, h2⟩
    · exact ⟨o, List.mem_cons_of_mem _ ho, he⟩

/-- Counterexample for C5: with a stored checkpoint of 100 for device
dev, a successful cycle whose only record carries gps_time 50 stores the
checkpoint 50, strictly below the previous checkpoint: the code takes
the maximum over the current cycle only and never compares with the
stored value. -/
theorem c5_checkpoint_can_regress :
    getState [(("i1", "pull_observations", "dev"), StateVal.checkpointState 100)]
        ("i1", "pull_observations", "dev") = some (.checkpointState 100)
    ∧ getState (action_playback "i1" ⟨"tok", [], "dev", "0", 10, 1000⟩
          [(("i1", "pull_observations", "dev"), StateVal.checkpointState 100)]
          [.env 0 (some "1.0,2.0,50,5,90")]).2 ("i1", "pull_observations", "dev")
        = some (.checkpointState 50)
    ∧ (50 : Int) < 100 := by
  refine ⟨by decide, ?_, by decide⟩
  have hrun : get_playback_observations "i1" ⟨"tok", [], "dev", "0", 10, 1000⟩
      [(("i1", "pull_observations", "dev"), StateVal.checkpointState 100)]
      [.env 0 (some "1.0,2.0,50,5,90")]
      = (.records [⟨"1.0", "2.0", 50, 5, 90⟩],
         [(("i1", "pull_observations", "dev"), StateVal.checkpointState 100)],
         [⟨"tok", "0"⟩]) := by
    unfold get_playback_observations
    exact playbackLoop_step_last "i1" ⟨"tok", [], "dev", "0", 10, 1000⟩
      [(("i1", "pull_observations", "dev"), StateVal.checkpointState 100)] []
      (some "1.0,2.0,50,5,90") [] ["1.0,2.0,50,5,90"] [⟨"1.0", "2.0", 50, 5, 90⟩]
      rfl (by decide) rfl
  unfold action_playback
  simp only [hrun]
  exact getState_setState_self _ _ _

/-- C5 amended: after a successful playback cycle the stored checkpoint
for the device equals the maximum gps_time over all records fetched in
that cycle; it is ≥ the previously stored checkpoint provided every
fetched record has gps_time ≥ that checkpoint (the vendor honouring the
requested window), since the code takes the maximum of the current
cycle only and performs no clamping against the stored value. -/
theorem c5_checkpoint_is_cycle_max (iid : String) (cfg : PlaybackConfig)
    (store : Store) (script : List PlaybackApiResp)
    (obs : List PlaybackResponse) (store1 : Store) (log : List PlaybackRequest)
    (prev : Int)
    (hrun : get_playback_observations iid cfg store script
        = (.records obs, store1, log))
    (hne : obs ≠ [])
    (_hprev : getState store (iid, "pull_observations", cfg.imei)
        = some (.checkpointState prev))
    (hmono : ∀ o ∈ obs, prev ≤ o.gpstime) :
    getState (action_playback iid cfg store script).2
        (iid, "pull_observations", cfg.imei)
      = some (.checkpointState (maxGpstime obs))
    ∧ (∀ o ∈ obs, o.gpstime ≤ maxGpstime obs)
    ∧ (∃ o ∈ obs, maxGpstime obs = o.gpstime)
    ∧ prev ≤ maxGpstime obs := by
  refine ⟨?_, fun o ho => maxGpstime_ge obs o ho, maxGpstime_mem obs hne, ?_⟩
  · unfold action_playback
    simp only [hrun]
    cases obs with
    | nil => exact absurd rfl hne
    | cons o rest => exact getState_setState_self _ _ _
  · obtain ⟨o, ho, he⟩ := maxGpstime_mem obs hne
    rw [he]
    exact hmono o ho

/-- Witness for C5 at a concrete run: previous checkpoint 100, one
record with gps_time 200, stored checkpoint 200 ≥ 100. -/
theorem c5_checkpoint_witness :
    get_playback_observations "i1" ⟨"tok", [], "dev", "0", 10, 1000⟩
        [(("i1", "pull_observations", "dev"), StateVal.checkpointState 100)]
        [.env 0 (some "1.0,2.0,200,5,90")]
      = (.records [⟨"1.0", "2.0", 200, 5, 90⟩],
         [(("i1", "pull_observations", "dev"), StateVal.checkpointState 100)],
         [⟨"tok", "0"⟩])
    ∧ getState (action_playback "i1" ⟨"tok", [], "dev", "0", 10, 1000⟩
        [(("i1", "pull_observations", "dev"), StateVal.checkpointState 100)]
        [.env 0 (some "1.0,2.0,200,5,90")]).2 ("i1", "pull_observations", "dev")
      = some (.checkpointState 200)
    ∧ (100 : Int) ≤ 200 := by
  have hrun : get_playback_observations "i1" ⟨"tok", [], "dev", "0", 10, 1000⟩
      [(("i1", "pull_observations", "dev"), StateVal.checkpointState 100)]
      [.env 0 (some "1.0,2.0,200,5,90")]
      = (.records [⟨"1.0", "2.0", 200, 5, 90⟩],
         [(("i1", "pull_observations", "dev"), StateVal.checkpointState 100)],
         [⟨"tok", "0"⟩]) := by
    unfold get_playback_observations
    exact playbackLoop_step_last "i1" ⟨"tok", [], "dev", "0", 10, 1000⟩
      [(("i1", "pull_observations", "dev"), StateVal.checkpointState 100)] []
      (some "1.0,2.0,200,5,90") [] ["1.0,2.0,200,5,90"] [⟨"1.0", "2.0", 200, 5, 90⟩]
      rfl (by decide) rfl
  have h := c5_checkpoint_is_cycle_max "i1" ⟨"tok", [], "dev", "0", 10, 1000⟩
    [(("i1", "pull_observations", "dev"), StateVal.checkpointState 100)]
    [.env 0 (some "1.0,2.0,200,5,90")]
    [⟨"1.0", "2.0", 200, 5, 90⟩]
    [(("i1", "pull_observations", "dev"), StateVal.checkpointState 100)]
    [⟨"tok", "0"⟩] 100 hrun (by decide) (by decide) (by decide)
  exact ⟨hrun, h.1, by decide⟩

theorem transform_additional (device : List (String × PyVal))
    (obs : PlaybackResponse) :
    (transform device obs).additional = dictExtend
      [("speed", .vint obs.speed), ("course", .vint obs.course)]
      (removeKey (removeKey device "imei") "devicename") := rfl

theorem dictInsert_fresh (d : List (String × PyVal)) (k : String) (v : PyVal)
    (h : lookupVal d k = none) : dictInsert d k v = d ++ [(k, v)] := by
  unfold dictInsert
  rw [h]
  rfl

theorem lookupVal_append_of_none (a b : List (String × PyVal)) (k : String)
    (ha : lookupVal a k = none) : lookupVal (a ++ b) k = lookupVal b k := by
  induction a with
  | nil => rfl
  | cons kv rest ih =>
    simp only [List.cons_append, lookupVal] at ha ⊢
    by_cases hk : kv.1 = k
    · rw [if_pos hk] at ha; cases ha
    · rw [if_neg hk] at ha ⊢
      exact ih ha

theorem dictExtend_fresh (entries : List (String × PyVal)) :
    ∀ d : List (String × PyVal),
    (∀ kv ∈ entries, lookupVal d kv.1 = none) →
    List.Pairwise (fun a b : String × PyVal => a.1 ≠ b.1) entries →
    dictExtend d entries = d ++ entries := by
  induction entries with
  | nil => intro d _ _; simp [dictExtend]
  | cons kv rest ih =>
    intro d hfresh hpw
    show dictExtend (dictInsert d kv.1 kv.2) rest = d ++ kv :: rest
    rw [dictInsert_fresh d kv.1 kv.2 (hfresh kv (List.mem_cons_self _ _))]
    rw [ih (d ++ [(kv.1, kv.2)])
        (by
          intro kv2 hkv2
          rw [lookupVal_append_of_none _ _ _ (hfresh kv2 (List.mem_cons_of_mem _ hkv2))]
          have hne : kv.1 ≠ kv2.1 := (List.pairwise_cons.mp hpw).1 kv2 hkv2
          simp [lookupVal, hne])
        (List.pairwise_cons.mp hpw).2]
    rw [List.append_assoc]
    rfl

/-- C7: for every device and every playback record, the additional bag
of the canonical observation built by transform holds the speed and
course of the record and every device metadata field other than imei
and devicename (which are promoted to the top level). -/
theorem c7_transform_preserves_metadata (d : DeviceResponse)
    (obs : PlaybackResponse) :
    lookupVal (transform (DeviceResponse.toDict d) obs).additional "speed"
        = some (.vint obs.speed)
    ∧ lookupVal (transform (DeviceResponse.toDict d) obs).additional "course"
        = some (.vint obs.course)
    ∧ lookupVal (transform (DeviceResponse.toDict d) obs).additional "simcard"
        = some d.simcard
    ∧ lookupVal (transform (DeviceResponse.toDict d) obs).additional "platenumber"
        = some d.platenumber
    ∧ lookupVal (transform (DeviceResponse.toDict d) obs).additional "iccid"
        = some d.iccid
    ∧ lookupVal (transform (DeviceResponse.toDict d) obs).additional "userduetime"
        = some d.userduetime
    ∧ lookupVal (transform (DeviceResponse.toDict d) obs).additional "onlinetime"
        = some d.onlinetime
    ∧ lookupVal (transform (DeviceResponse.toDict d) obs).additional "activatedtime"
        = some d.activatedtime
    ∧ lookupVal (transform (DeviceResponse.toDict d) obs).additional "devicetype"
        = some d.devicetype
    ∧ lookupVal (transform (DeviceResponse.toDict d) obs).additional
          "platformduetime"
        = some d.platformduetime := by
  have hd2 : removeKey (removeKey (DeviceResponse.toDict d) "imei") "devicename"
      = [("simcard", d.simcard), ("platenumber", d.platenumber),
         ("iccid", d.iccid), ("userduetime", d.userduetime),
         ("onlinetime", d.onlinetime), ("activatedtime", d.activatedtime),
         ("devicetype", d.devicetype), ("platformduetime", d.platformduetime)] := by
    simp [DeviceResponse.toDict, removeKey]
  have hadd : (transform (DeviceResponse.toDict d) obs).additional
      = [("speed", PyVal.vint obs.speed), ("course", PyVal.vint obs.course)] ++
        [("simcard", d.simcard), ("platenumber", d.platenumber),
         ("iccid", d.iccid), ("userduetime", d.userduetime),
         ("onlinetime", d.onlinetime), ("activatedtime", d.activatedtime),
         ("devicetype", d.devicetype), ("platformduetime", d.platformduetime)] := by
    rw [transform_additional, hd2]
    refine dictExtend_fresh _ _ ?_ ?_
    · intro kv hkv
      simp only [List.mem_cons, List.not_mem_nil, or_false] at hkv
      rcases hkv with rfl | rfl | rfl | rfl | rfl | rfl | rfl | rfl <;>
        simp [lookupVal]
    · simp [List.pairwise_cons]
  rw [hadd]
  refine ⟨?_, ?_, ?_, ?_, ?_, ?_, ?_, ?_, ?_, ?_⟩ <;> simp [lookupVal]

/-- C8: for a device with no stored state and default_lookback_days 3,
the computed begin time is the ceiling of now minus 3 days and lies
within one second of now minus 3 days, and the end time is now as
integer unix seconds (its ceiling, within one second of now). -/
theorem c8_default_lookback_window (store : Store) (iid imei : String) (now : ℚ)
    (h : getState store (iid, "pull_observations", imei) = none) :
    playback_begin_time store iid imei now 3
        = some ⌈now - ((3:ℤ) : ℚ) * 86400⌉
    ∧ |((⌈now - ((3:ℤ) : ℚ) * 86400⌉ : ℤ) : ℚ) - (now - 3 * 86400)| ≤ 1
    ∧ playback_end_time now = ⌈now⌉
    ∧ |((⌈now⌉ : ℤ) : ℚ) - now| ≤ 1 := by
  refine ⟨?_, ?_, rfl, ?_⟩
  · unfold playback_begin_time
    rw [h]
  · rw [abs_le]
    constructor
    · have h1 := Int.le_ceil (now - ((3:ℤ) : ℚ) * 86400)
      push_cast at h1 ⊢
      linarith
    · have h2 := Int.ceil_lt_add_one (now - ((3:ℤ) : ℚ) * 86400)
      push_cast at h2 ⊢
      linarith
  · rw [abs_le]
    constructor
    · have h1 := Int.le_ceil now
      linarith
    · have h2 := Int.ceil_lt_add_one now
      linarith

/-- Witness for C8 at a concrete empty store and now = 1000000. -/
theorem c8_default_lookback_witness :
    getState ([] : Store) ("i1", "pull_observations", "d") = none
    ∧ playback_begin_time [] "i1" "d" (1000000 : ℚ) 3
        = some ⌈(1000000 : ℚ) - ((3:ℤ) : ℚ) * 86400⌉
    ∧ |((⌈(1000000 : ℚ) - ((3:ℤ) : ℚ) * 86400⌉ : ℤ) : ℚ)
        - ((1000000 : ℚ) - 3 * 86400)| ≤ 1 := by
  have h := c8_default_lookback_window [] "i1" "d" (1000000 : ℚ) rfl
  exact ⟨rfl, h.1, h.2.1⟩
